import Mathlib

/-!
# Verification of the ESP OTA protocol engine (`ESPOTAService`)

A shallow embedding of the protocol core of the ESP OTA mobile updater:
the UDP invitation handshake with bounded retry (`sendInvitation`), the
acknowledgment-gated chunked TCP transfer (`sendFile`), the reachability
probe (`testConnection`) and the upload orchestrator (`uploadFirmware`).

JavaScript strings are modelled as `List Char`, with the JS string
operations used by the code (`trim`, `startsWith`, `includes`,
`split(' ')`) re-implemented faithfully below.  The event-driven parts
(timers, UDP message listeners, promise resolution) are modelled as
deterministic functions of an environment schedule: the schedule says
which reply (if any) arrives in each retry window, and which
acknowledgment payload answers each TCP chunk.
-/

namespace ESPOTA

/-- JS `String.prototype.trim` removes leading and trailing whitespace;
these are the whitespace characters relevant to the wire protocol. -/
def jsIsWhitespace (c : Char) : Bool :=
  c = ' ' || c = '\t' || c = '\n' || c = '\r' || c = '\x0b' || c = '\x0c'

/-- JS `s.trim()` on a string modelled as a character list. -/
def jsTrim (s : List Char) : List Char :=
  ((s.dropWhile jsIsWhitespace).reverse.dropWhile jsIsWhitespace).reverse

/-- JS `s.startsWith(pre)`. -/
def startsWithChars : List Char → List Char → Bool
  | [], _ => true
  | _ :: _, [] => false
  | p :: ps, c :: cs => p == c && startsWithChars ps cs

/-- JS `s.split(' ')`: split on every single space character; consecutive
spaces produce empty fields, and the empty string yields `[[]]`. -/
def splitOnSpace : List Char → List (List Char)
  | [] => [[]]
  | c :: rest =>
    match splitOnSpace rest with
    | [] => [[]]
    | t :: ts => if c = ' ' then [] :: t :: ts else (c :: t) :: ts

/-- JS `s.includes(pat)`: some position of `s` starts an occurrence of
`pat`. -/
def containsChars (pat s : List Char) : Bool :=
  (List.range (s.length + 1)).any fun i => decide ((s.drop i).take pat.length = pat)

/-- `InvitationResult` of `ESPOTAService.ts`: the value with which the
`sendInvitation` promise resolves (`nonce` is the optional field). -/
structure InvitationResult where
  success : Bool
  needsAuth : Bool
  nonce : Option (List Char)
deriving DecidableEq, Repr

/-- How the `sendInvitation` promise settles: `resolved` for the two
`resolve(...)` sites of the response handler, `rejectedBad` for
`reject(new Error('Bad response: ...'))` (carrying the trimmed reply) and
`rejectedTimeout` for `reject(new Error('No response from ESP after 10
attempts'))`. -/
inductive InvOutcome
  | resolved (r : InvitationResult)
  | rejectedBad (raw : List Char)
  | rejectedTimeout
deriving DecidableEq, Repr

/-- The response handler of `sendInvitation` (source lines 235-250): the
datagram text is trimmed; exactly `"OK"` resolves `{success: true,
needsAuth: false}`; a trimmed text starting with `"AUTH"` resolves
`{success: true, needsAuth: true, nonce: response.split(' ')[1]}`;
anything else rejects with the trimmed text. -/
def classifyResponse (data : List Char) : InvOutcome :=
  let response := jsTrim data
  if response = "OK".data then
    .resolved ⟨true, false, none⟩
  else if startsWithChars "AUTH".data response then
    .resolved ⟨true, true, (splitOnSpace response).get? 1⟩
  else
    .rejectedBad response

/-- `maxAttempts` of `sendInvitation`. -/
def maxAttempts : Nat := 10

/-- The `setTimeout` delay (ms) between invitation attempts. -/
def udpRetryWaitMs : Nat := 1000

/-- Observable trace of one `sendInvitation` call: how the promise
settled, the attempt number during whose wait window it settled, and the
total number of `sendAttempt` invocations (= datagrams sent or attempted). -/
structure InvSim where
  result : InvOutcome
  settledAt : Nat
  sends : Nat
deriving DecidableEq, Repr

/-- Settlement of the promise once the timer chain ends at attempt `a`:
either the recorded first settlement, or the timeout rejection. -/
def finalizeChain : Option (InvOutcome × Nat) → Nat → InvSim
  | some (r, k), a => ⟨r, k, a⟩
  | none, a => ⟨.rejectedTimeout, a, a⟩

/-- The nested `sendAttempt`/`setTimeout` chain of `sendInvitation`
(source lines 222-264).  Each call increments the attempt counter and
sends the datagram; a reply arriving in the current wait window settles
the promise if it is not yet settled (the message listener is removed and
the socket closed on first settlement, so later replies are ignored).
The 1000 ms timer of each attempt is never cleared, so the chain
continues to re-send while `attempts < maxAttempts` even after the
promise has settled; the structural `fuel` argument equals
`maxAttempts - attempts` throughout, making the code's `attempts <
maxAttempts` test the same as `fuel ≠ 0` after one step. -/
def sendAttemptChain (sched : Nat → Option (List Char)) :
    Nat → Nat → Option (InvOutcome × Nat) → InvSim
  | 0, attempts, settled => finalizeChain settled attempts
  | fuel + 1, attempts, settled =>
    let a := attempts + 1
    let settled' :=
      match settled with
      | some s => some s
      | none => (sched a).map fun reply => (classifyResponse reply, a)
    if fuel = 0 then finalizeChain settled' a
    else sendAttemptChain sched fuel a settled'

/-- One full `sendInvitation` call against a reply schedule: `sched n`
is the reply datagram (if any) arriving during attempt `n`'s wait
window. -/
def invSim (sched : Nat → Option (List Char)) : InvSim :=
  sendAttemptChain sched maxAttempts 0 none

/-! ## The TCP transfer (`sendFile`) -/

/-- `chunkSize` of `sendFile`. -/
def chunkSize : Nat := 1024

/-- The `setTimeout(sendChunk, 10)` inter-chunk delay (ms). -/
def interChunkDelayMs : Nat := 10

/-- The 60-second watchdog delay (ms) of `sendFile`. -/
def serverTimeoutMs : Nat := 60000

/-- The acknowledgment test of `sendChunk` (source lines 315-318): the
payload is trimmed, and the transfer continues when the trimmed text
contains `"OK"` or is empty. -/
def positiveAck (payload : List Char) : Bool :=
  let responseStr := jsTrim payload
  containsChars "OK".data responseStr || responseStr.isEmpty

/-- How the chunk loop of `sendFile` ends: `completed` for the
`resolve({success: true, ...})` branch, `unexpectedAck` for
`reject(new Error('Upload failed: ...'))` (carrying the trimmed
acknowledgment), `outOfFuel` marks exhaustion of the structural fuel and
is proved unreachable below. -/
inductive TransferOutcome
  | completed
  | unexpectedAck (payload : List Char)
  | outOfFuel
deriving DecidableEq, Repr

/-- The `sendChunk` loop of `sendFile` (source lines 281-328), as a
function of the acknowledgment schedule `acks` (the payload answering
the chunk with index `chunkIdx`).  Each iteration: if `uploadedBytes ≥
fileSize` the promise resolves; otherwise the next
`min(chunkSize, fileSize - uploadedBytes)` bytes are written, and the
loop waits for one acknowledgment — a positive one continues, anything
else rejects.  The returned list collects the chunk sizes written, in
order.  `fuel` only bounds the number of iterations; every iteration
before the last writes at least one byte, so `fileSize + 1` iterations
always suffice. -/
def sendChunkGo (fileSize : Nat) (acks : Nat → List Char) :
    Nat → Nat → Nat → TransferOutcome × List Nat
  | 0, _, _ => (.outOfFuel, [])
  | fuel + 1, uploadedBytes, chunkIdx =>
    if fileSize ≤ uploadedBytes then (.completed, [])
    else
      let currentChunkSize := min chunkSize (fileSize - uploadedBytes)
      let ack := acks chunkIdx
      if positiveAck ack then
        let rest := sendChunkGo fileSize acks fuel (uploadedBytes + currentChunkSize) (chunkIdx + 1)
        (rest.1, currentChunkSize :: rest.2)
      else
        (.unexpectedAck (jsTrim ack), [currentChunkSize])

/-- The chunked transfer of a `fileSize`-byte payload against an
acknowledgment schedule, started like the code with `uploadedBytes = 0`. -/
def sendFileChunks (fileSize : Nat) (acks : Nat → List Char) :
    TransferOutcome × List Nat :=
  sendChunkGo fileSize acks (fileSize + 1) 0 0

/-- The exit paths of the `sendFile` promise. -/
inductive ExitPath
  | completed
  | unexpectedAck
  | writeError
  | socketError
  | watchdogTimeout
deriving DecidableEq, Repr

/-- Which resources a `sendFile` exit path releases. -/
structure Cleanup where
  serverClosed : Bool
  socketEnded : Bool
deriving DecidableEq, Repr

/-- The cleanup statements executed by `sendFile` on each exit path,
read off the source: the completion branch (lines 283-291) runs
`socket.end()` then `server.close()`; the TCP-write-error branch (lines
299-304), the unexpected-acknowledgment branch (lines 319-323), the
socket `error` handler (lines 330-334) and the 60 s watchdog (lines
347-351) each run only `server.close()` before rejecting — none of them
ends the accepted connection. -/
def sendFileCleanup : ExitPath → Cleanup
  | .completed => ⟨true, true⟩
  | .unexpectedAck => ⟨true, false⟩
  | .writeError => ⟨true, false⟩
  | .socketError => ⟨true, false⟩
  | .watchdogTimeout => ⟨true, false⟩

/-- The values with which the `sendFile` promise can settle. -/
inductive SendFileSettle
  | resolvedOk (fileSize : Nat)
  | rejectedWrite
  | rejectedSocket
  | rejectedUnexpected (payload : List Char)
  | rejectedTimeout
deriving DecidableEq, Repr

/-- The watchdog timer of `sendFile` (source lines 347-351): when it
fires at 60 s it closes the listener and rejects with the timeout error.
A promise settles at most once, so the rejection takes effect only when
the session has not already settled; the argument is the promise state
at the moment the timer fires, the result is the final settlement paired
with whether the listener was closed by the handler. -/
def watchdogFire (settledBefore : Option SendFileSettle) :
    SendFileSettle × Bool :=
  match settledBefore with
  | some r => (r, true)
  | none => (.rejectedTimeout, true)

/-! ## The orchestrator (`uploadFirmware`) and the probe (`testConnection`) -/

/-- Command codes of `ESPOTAService`. -/
def FLASH : Nat := 0

/-- The `SPIFFS` command code. -/
def SPIFFS : Nat := 100

/-- The `AUTH` command code. -/
def AUTH : Nat := 200

/-- The invitation datagram text (source line 214):
`"<command> <localPort> <fileSize> <fileMD5>\n"`. -/
def invitationMessage (command localPort fileSize : Nat) (fileMD5 : List Char) :
    List Char :=
  (toString command).data ++ [' '] ++ (toString localPort).data ++ [' '] ++
    (toString fileSize).data ++ [' '] ++ fileMD5 ++ ['\n']

/-- `Math.floor(Math.random() * 50000) + 10000` of `uploadFirmware`
(source line 373), with the `Math.random()` output modelled as a
rational in `[0, 1)`. -/
def jsRandomPort (rand : ℚ) : ℤ :=
  ⌊rand * 50000⌋ + 10000

/-- Observable trace of `uploadFirmware` up to the transfer phase: the
local port it chose, the port it passed to `sendInvitation`, whether the
`throw new Error('ESP invitation failed')` branch ran, and the port
passed to `sendFile` (absent when the invitation did not succeed). -/
structure UploadTrace where
  localPort : ℤ
  invitationPort : ℤ
  threwInvitationFailed : Bool
  transferPort : Option ℤ
deriving DecidableEq, Repr

/-- `uploadFirmware` (source lines 355-408) up to the transfer phase:
pick the random local port, await the invitation with that port, throw
when `invitationResult.success` is false, otherwise call `sendFile` with
the same port.  A rejected invitation propagates out of the `await`, so
neither the throw branch nor the transfer runs. -/
def uploadFirmware (rand : ℚ) (sched : Nat → Option (List Char)) : UploadTrace :=
  let localPort := jsRandomPort rand
  match (invSim sched).result with
  | .resolved r =>
    if !r.success then ⟨localPort, localPort, true, none⟩
    else ⟨localPort, localPort, false, some localPort⟩
  | .rejectedBad _ => ⟨localPort, localPort, false, none⟩
  | .rejectedTimeout => ⟨localPort, localPort, false, none⟩

/-- The sentinel local port `testConnection` passes to `sendInvitation`. -/
def testSentinelPort : Nat := 12345

/-- The arguments `testConnection` passes to `sendInvitation` (source
lines 422-429): sentinel port 12345, payload size 0, digest `"test"`,
command `FLASH`. -/
def testConnectionArgs : Nat × Nat × List Char × Nat :=
  (testSentinelPort, 0, "test".data, FLASH)

/-- The invitation datagram a `testConnection` call sends. -/
def testConnectionMessage : List Char :=
  invitationMessage FLASH testSentinelPort 0 ("test".data)

/-- `testConnection` (source lines 418-436): await the invitation and
return `testResult.success`; the surrounding `try`/`catch` turns every
rejection into `false`, so the call is a total boolean function of the
reply schedule and never raises. -/
def testConnection (sched : Nat → Option (List Char)) : Bool :=
  match (invSim sched).result with
  | .resolved r => r.success
  | .rejectedBad _ => false
  | .rejectedTimeout => false

/-! ## Reply schedules used by concrete runs -/

/-- A target that never replies. -/
def schedSilent : Nat → Option (List Char) := fun _ => none

/-- A responder that answers `"OK"` during the first attempt's window. -/
def schedOKFirst : Nat → Option (List Char) :=
  fun n => if n = 1 then some ("OK".data) else none

/-- A responder that answers `"AUTHX"` during the first attempt's
window. -/
def schedAUTHX : Nat → Option (List Char) :=
  fun n => if n = 1 then some ("AUTHX".data) else none

/-- A responder that answers `"AUTH abc123"` during the first attempt's
window. -/
def schedAuthNonce : Nat → Option (List Char) :=
  fun n => if n = 1 then some ("AUTH abc123".data) else none

/-! ## Helper lemmas about the invitation retry chain -/

/-- Once the promise has settled, the remaining timer chain never changes
the settlement; it only keeps incrementing the attempt counter. -/
theorem chain_after_settle (sched : Nat → Option (List Char)) :
    ∀ fuel attempts r k,
      sendAttemptChain sched fuel attempts (some (r, k)) = ⟨r, k, attempts + fuel⟩ := by
  intro fuel
  induction fuel with
  | zero =>
    intro attempts r k
    simp [sendAttemptChain, finalizeChain]
  | succ fuel ih =>
    intro attempts r k
    simp only [sendAttemptChain]
    by_cases h : fuel = 0
    · subst h
      simp [finalizeChain]
    · rw [if_neg h, ih]
      congr 1
      omega

/-- With a silent target the chain stays unsettled and ends in the
timeout rejection after running out of attempts. -/
theorem chain_silent (sched : Nat → Option (List Char)) (hs : ∀ n, sched n = none) :
    ∀ fuel attempts,
      sendAttemptChain sched fuel attempts none =
        ⟨.rejectedTimeout, attempts + fuel, attempts + fuel⟩ := by
  intro fuel
  induction fuel with
  | zero =>
    intro attempts
    simp [sendAttemptChain, finalizeChain]
  | succ fuel ih =>
    intro attempts
    simp only [sendAttemptChain, hs, Option.map_none']
    by_cases h : fuel = 0
    · subst h
      simp [finalizeChain]
    · rw [if_neg h, ih]
      congr 1 <;> omega

/-- If the windows of attempts `1, …, n-1` are silent and a reply `r`
arrives during attempt `n`'s window, the promise settles with
`classifyResponse r` at attempt `n`, while the chain still runs through
all its attempts. -/
theorem chain_first_reply (sched : Nat → Option (List Char)) (n : Nat) (r : List Char)
    (hbefore : ∀ k, 1 ≤ k → k < n → sched k = none) (hr : sched n = some r) :
    ∀ fuel attempts, attempts < n → n ≤ attempts + fuel →
      sendAttemptChain sched fuel attempts none =
        ⟨classifyResponse r, n, attempts + fuel⟩ := by
  intro fuel
  induction fuel with
  | zero =>
    intro attempts h1 h2
    omega
  | succ fuel ih =>
    intro attempts h1 h2
    simp only [sendAttemptChain]
    by_cases hn : attempts + 1 = n
    · rw [hn, hr]
      simp only [Option.map_some']
      by_cases hf : fuel = 0
      · subst hf
        rw [if_pos rfl]
        simp only [finalizeChain, InvSim.mk.injEq]
        exact ⟨trivial, trivial, by omega⟩
      · rw [if_neg hf, chain_after_settle]
        simp only [InvSim.mk.injEq]
        exact ⟨trivial, trivial, by omega⟩
    · rw [hbefore (attempts + 1) (by omega) (by omega)]
      simp only [Option.map_none']
      by_cases hf : fuel = 0
      · subst hf
        exfalso
        omega
      · rw [if_neg hf, ih (attempts + 1) (by omega) (by omega)]
        congr 1
        omega

/-- Both `resolve(...)` sites of the response handler carry
`success: true`. -/
theorem classifyResponse_success (data : List Char) (r : InvitationResult)
    (h : classifyResponse data = .resolved r) : r.success = true := by
  simp only [classifyResponse] at h
  split at h
  · cases h
    rfl
  · split at h
    · cases h
      rfl
    · exact InvOutcome.noConfusion h

/-- `finalizeChain` only resolves with a value recorded in its settled
argument. -/
theorem finalize_resolved_success
    (settled : Option (InvOutcome × Nat)) (a : Nat)
    (inv : ∀ s k r, settled = some (s, k) → s = .resolved r → r.success = true)
    (r : InvitationResult) (h : (finalizeChain settled a).result = .resolved r) :
    r.success = true := by
  match settled with
  | some (s, k) => exact inv s k r rfl h
  | none => exact InvOutcome.noConfusion h

/-- Every resolution the retry chain can produce carries
`success: true`. -/
theorem chain_resolved_success (sched : Nat → Option (List Char)) :
    ∀ fuel attempts settled,
      (∀ s k r, settled = some (s, k) → s = .resolved r → r.success = true) →
      ∀ r, (sendAttemptChain sched fuel attempts settled).result = .resolved r →
        r.success = true := by
  intro fuel
  induction fuel with
  | zero =>
    intro attempts settled inv r h
    exact finalize_resolved_success settled attempts inv r h
  | succ fuel ih =>
    intro attempts settled inv r h
    simp only [sendAttemptChain] at h
    have inv' : ∀ s k r,
        (match settled with
          | some s => some s
          | none => (sched (attempts + 1)).map
              fun reply => (classifyResponse reply, attempts + 1)) = some (s, k) →
        s = .resolved r → r.success = true := by
      intro s k r' hsome hres
      cases hset : settled with
      | some s0 =>
        rw [hset] at hsome
        simp only at hsome
        exact inv s k r' (hset.trans hsome) hres
      | none =>
        rw [hset] at hsome
        simp only at hsome
        cases hsched : sched (attempts + 1) with
        | none =>
          rw [hsched] at hsome
          simp at hsome
        | some reply =>
          rw [hsched] at hsome
          simp only [Option.map_some', Option.some.injEq, Prod.mk.injEq] at hsome
          subst hres
          exact classifyResponse_success reply r' hsome.1
    by_cases hf : fuel = 0
    · rw [if_pos hf] at h
      exact finalize_resolved_success _ _ inv' r h
    · rw [if_neg hf] at h
      exact ih (attempts + 1) _ inv' r h

/-- `sendInvitation` fulfils only with `success: true`. -/
theorem invSim_resolved_success (sched : Nat → Option (List Char))
    (r : InvitationResult) (h : (invSim sched).result = .resolved r) :
    r.success = true :=
  chain_resolved_success sched maxAttempts 0 none
    (fun _ _ _ hsome _ => Option.noConfusion hsome) r h


/-! ## Claim theorems: invitation phase -/

/-- C1 (counterexample): the reply `"AUTHX"` equals its own trim and does
not begin with `"AUTH "` (with the trailing space), so under the claim it
should reject with a protocol error carrying `"AUTHX"`; the code instead
resolves `AuthRequired` with no nonce, because the handler only checks
the prefix `"AUTH"` without the space. -/
theorem invitation_response_grammar_counterexample :
    (invSim schedAUTHX).result = InvOutcome.resolved ⟨true, true, none⟩ ∧
    jsTrim ("AUTHX".data) = "AUTHX".data ∧
    startsWithChars ("AUTH ".data) ("AUTHX".data) = false := by
  decide

/-- C1 (amended): for the first UDP reply `r` received before resolution
(arriving during attempt `n`'s window after silent windows), the reply is
first trimmed of whitespace; the trimmed text `"OK"` resolves `Accepted`;
a trimmed text that begins with `"AUTH"` (no trailing space required)
resolves `AuthRequired` with nonce the second split-on-single-space token
when present; any other trimmed text rejects with a protocol error
carrying the trimmed text. -/
theorem invitation_response_grammar (sched : Nat → Option (List Char))
    (n : Nat) (r : List Char) (hn : 1 ≤ n) (hmax : n ≤ maxAttempts)
    (hbefore : ∀ k, 1 ≤ k → k < n → sched k = none) (hr : sched n = some r) :
    (invSim sched).result = classifyResponse r ∧
    (jsTrim r = "OK".data →
      (invSim sched).result = .resolved ⟨true, false, none⟩) ∧
    (jsTrim r ≠ "OK".data → startsWithChars ("AUTH".data) (jsTrim r) = true →
      (invSim sched).result =
        .resolved ⟨true, true, (splitOnSpace (jsTrim r)).get? 1⟩) ∧
    (jsTrim r ≠ "OK".data → startsWithChars ("AUTH".data) (jsTrim r) = false →
      (invSim sched).result = .rejectedBad (jsTrim r)) := by
  have hres : (invSim sched).result = classifyResponse r := by
    rw [invSim, chain_first_reply sched n r hbefore hr maxAttempts 0 (by omega) (by omega)]
  refine ⟨hres, ?_, ?_, ?_⟩
  · intro htrim
    rw [hres]
    simp only [classifyResponse, htrim]
    simp
  · intro htrim hstart
    rw [hres]
    simp only [classifyResponse]
    rw [if_neg htrim, if_pos hstart]
  · intro htrim hstart
    rw [hres]
    simp only [classifyResponse]
    rw [if_neg htrim, if_neg (by simp [hstart])]

/-- C1 (witness): a responder answering `"AUTH abc123"` on the first
attempt resolves `AuthRequired` with nonce `"abc123"`. -/
theorem invitation_response_grammar_witness :
    (invSim schedAuthNonce).result =
      InvOutcome.resolved ⟨true, true, some ("abc123".data)⟩ := by
  have h := (invitation_response_grammar schedAuthNonce 1 ("AUTH abc123".data)
      (by decide) (by decide)
      (fun k hk1 hk2 => absurd (Nat.lt_of_lt_of_le hk2 hk1) (by omega)) rfl).2.2.1
      (by decide) (by decide)
  rw [h]
  decide

/-- C3 (confirmed): against a target that never replies, `sendInvitation`
performs exactly `maxAttempts = 10` send attempts — never an eleventh —
with a `udpRetryWaitMs = 1000` ms wait after each, and then settles by
rejecting with the timeout error, never by resolving. -/
theorem invitation_timeout_retries (sched : Nat → Option (List Char))
    (hsilent : ∀ n, sched n = none) :
    (invSim sched).result = InvOutcome.rejectedTimeout ∧
    (invSim sched).sends = 10 ∧
    maxAttempts = 10 ∧ udpRetryWaitMs = 1000 := by
  rw [invSim, chain_silent sched hsilent maxAttempts 0]
  exact ⟨rfl, rfl, rfl, rfl⟩

/-- C3 (witness): the all-silent schedule. -/
theorem invitation_timeout_retries_witness :
    (invSim schedSilent).result = InvOutcome.rejectedTimeout ∧
    (invSim schedSilent).sends = 10 ∧
    maxAttempts = 10 ∧ udpRetryWaitMs = 1000 :=
  invitation_timeout_retries schedSilent (fun _ => rfl)

/-- C7 (counterexample): with `"OK"` arriving in the first attempt's wait
window the promise resolves `Accepted` at attempt 1, yet the call still
performs all 10 send attempts — the per-attempt 1000 ms timers are never
cancelled, so nine further send attempts occur after resolution,
contradicting the claim that no further send attempts occur. -/
theorem invitation_single_resolution_counterexample :
    invSim schedOKFirst =
      ⟨InvOutcome.resolved ⟨true, false, none⟩, 1, 10⟩ := by
  decide

/-- C7 (amended): if a reply `"OK"` arrives during the first attempt's
wait window, the call resolves `Accepted` with the settlement recorded at
attempt 1, and the settlement is unique and independent of any replies
in later windows (a reply arriving after resolution is ignored); however
the uncancelled retry timers still fire all `maxAttempts = 10` send
attempts, the later ones on the closed socket, without changing the
result. -/
theorem invitation_single_resolution (sched : Nat → Option (List Char))
    (h1 : sched 1 = some ("OK".data)) :
    invSim sched = ⟨InvOutcome.resolved ⟨true, false, none⟩, 1, maxAttempts⟩ := by
  have h := chain_first_reply sched 1 ("OK".data)
      (fun k hk1 hk2 => absurd (Nat.lt_of_lt_of_le hk2 hk1) (by omega)) h1
      maxAttempts 0 (by decide) (by decide)
  rw [invSim, h]
  decide

/-- C7 (witness): the schedule answering `"OK"` in the first window. -/
theorem invitation_single_resolution_witness :
    invSim schedOKFirst =
      ⟨InvOutcome.resolved ⟨true, false, none⟩, 1, maxAttempts⟩ :=
  invitation_single_resolution schedOKFirst rfl

/-- C9 (confirmed): whenever the `sendInvitation` promise fulfils, the
returned `InvitationResult` has `success = true` (both `resolve` sites
hard-code it), so the `uploadFirmware` branch that throws
`'ESP invitation failed'` when `invitationResult.success` is false never
runs. -/
theorem invitation_success_invariant (rand : ℚ) (sched : Nat → Option (List Char)) :
    (∀ r, (invSim sched).result = InvOutcome.resolved r → r.success = true) ∧
    (uploadFirmware rand sched).threwInvitationFailed = false := by
  refine ⟨fun r h => invSim_resolved_success sched r h, ?_⟩
  unfold uploadFirmware
  cases h : (invSim sched).result with
  | resolved r =>
    have hs := invSim_resolved_success sched r h
    simp [hs]
  | rejectedBad raw => simp
  | rejectedTimeout => simp

/-- C9 (witness): the first-window `"OK"` responder fulfils with
`success = true`, and the orchestrator's failure branch does not run. -/
theorem invitation_success_invariant_witness :
    (⟨true, false, none⟩ : InvitationResult).success = true ∧
    (uploadFirmware (1/2) schedOKFirst).threwInvitationFailed = false :=
  ⟨(invitation_success_invariant (1/2) schedOKFirst).1 ⟨true, false, none⟩ (by decide),
   (invitation_success_invariant (1/2) schedOKFirst).2⟩

/-- C10 (confirmed): the local TCP port picked by `uploadFirmware` —
`Math.floor(Math.random() * 50000) + 10000` with `Math.random() ∈ [0,1)`
— lies in `[10000, 59999]`, and the very same port value is passed to
the invitation phase and (when the transfer runs) to the transfer
phase. -/
theorem upload_port_spec (rand : ℚ) (sched : Nat → Option (List Char))
    (h0 : 0 ≤ rand) (h1 : rand < 1) :
    10000 ≤ (uploadFirmware rand sched).localPort ∧
    (uploadFirmware rand sched).localPort ≤ 59999 ∧
    (uploadFirmware rand sched).invitationPort = (uploadFirmware rand sched).localPort ∧
    ∀ p, (uploadFirmware rand sched).transferPort = some p →
      p = (uploadFirmware rand sched).localPort := by
  have hb : 10000 ≤ jsRandomPort rand ∧ jsRandomPort rand ≤ 59999 := by
    unfold jsRandomPort
    have h2 : (0 : ℤ) ≤ ⌊rand * 50000⌋ :=
      Int.floor_nonneg.mpr (mul_nonneg h0 (by norm_num))
    have h3 : ⌊rand * 50000⌋ < 50000 := by
      rw [Int.floor_lt]
      push_cast
      nlinarith
    omega
  unfold uploadFirmware
  cases h : (invSim sched).result with
  | resolved r =>
    by_cases hs : r.success <;> simp [hs, hb.1, hb.2]
  | rejectedBad raw => simp [hb.1, hb.2]
  | rejectedTimeout => simp [hb.1, hb.2]

/-- C10 (witness): `Math.random() = 1/2` yields port 35000, used for
both phases. -/
theorem upload_port_spec_witness :
    10000 ≤ (uploadFirmware (1/2) schedOKFirst).localPort ∧
    (uploadFirmware (1/2) schedOKFirst).localPort ≤ 59999 ∧
    (uploadFirmware (1/2) schedOKFirst).invitationPort =
      (uploadFirmware (1/2) schedOKFirst).localPort ∧
    ∀ p, (uploadFirmware (1/2) schedOKFirst).transferPort = some p →
      p = (uploadFirmware (1/2) schedOKFirst).localPort :=
  upload_port_spec (1/2) schedOKFirst (by norm_num) (by norm_num)

/-- C8 (confirmed): `testConnection` invokes the invitation with the
fixed sentinel local port 12345, payload size 0, digest `"test"` and
command `FLASH` (sending the datagram `"0 12345 0 test\n"`); it returns
`true` when the invitation outcome is `Accepted` or `AuthRequired`, and
`false` for every failure — protocol error or timeout — since the
surrounding `try`/`catch` turns each rejection into `false` and the
operation is a total boolean function that never raises. -/
theorem test_connection_spec (sched : Nat → Option (List Char)) :
    testConnectionArgs = (12345, 0, "test".data, FLASH) ∧
    testConnectionMessage = ("0 12345 0 test".data ++ ['\n']) ∧
    ((invSim sched).result = InvOutcome.resolved ⟨true, false, none⟩ →
      testConnection sched = true) ∧
    (∀ nonce, (invSim sched).result = InvOutcome.resolved ⟨true, true, nonce⟩ →
      testConnection sched = true) ∧
    (∀ raw, (invSim sched).result = InvOutcome.rejectedBad raw →
      testConnection sched = false) ∧
    ((invSim sched).result = InvOutcome.rejectedTimeout →
      testConnection sched = false) := by
  refine ⟨rfl, by decide, ?_, ?_, ?_, ?_⟩
  · intro h
    unfold testConnection
    rw [h]
  · intro nonce h
    unfold testConnection
    rw [h]
  · intro raw h
    unfold testConnection
    rw [h]
  · intro h
    unfold testConnection
    rw [h]

/-- C8 (witness): with a target that never replies the invitation times
out and `testConnection` returns `false` without raising. -/
theorem test_connection_spec_witness :
    testConnection schedSilent = false :=
  (test_connection_spec schedSilent).2.2.2.2.2 (by decide)

/-! ## Helper lemmas about the chunk loop -/

/-- Spec-side description of the chunk sequence: for `r` remaining bytes
the next chunk has `min chunkSize r` bytes, followed by the chunks for
what remains. -/
def specChunkSizes : Nat → List Nat
  | 0 => []
  | r + 1 => min chunkSize (r + 1) :: specChunkSizes (r + 1 - min chunkSize (r + 1))
termination_by r => r
decreasing_by simp only [chunkSize]; omega

/-- With every acknowledgment positive, the chunk loop completes and
produces exactly the spec-side chunk sequence of the remaining bytes
(given enough fuel, which `fileSize + 1` always is). -/
theorem sendChunkGo_pos (fileSize : Nat) (acks : Nat → List Char)
    (hpos : ∀ k, positiveAck (acks k) = true) :
    ∀ fuel uploadedBytes chunkIdx, fileSize - uploadedBytes < fuel →
      sendChunkGo fileSize acks fuel uploadedBytes chunkIdx =
        (.completed, specChunkSizes (fileSize - uploadedBytes)) := by
  intro fuel
  induction fuel with
  | zero =>
    intro ub idx h
    omega
  | succ fuel ih =>
    intro ub idx h
    simp only [sendChunkGo]
    by_cases hub : fileSize ≤ ub
    · rw [if_pos hub, Nat.sub_eq_zero_of_le hub]
      simp [specChunkSizes]
    · rw [if_neg hub, if_pos (hpos idx)]
      have hc : 0 < chunkSize := by decide
      have hfu : fileSize - (ub + min chunkSize (fileSize - ub)) < fuel := by omega
      rw [ih (ub + min chunkSize (fileSize - ub)) (idx + 1) hfu]
      obtain ⟨r, hr⟩ : ∃ r, fileSize - ub = r + 1 := ⟨fileSize - ub - 1, by omega⟩
      rw [hr, specChunkSizes]
      have hrw : fileSize - (ub + min chunkSize (r + 1)) =
          r + 1 - min chunkSize (r + 1) := by omega
      rw [hrw]

/-- With every acknowledgment positive, `sendFile`'s chunk loop on a
`fileSize`-byte payload completes with the spec-side chunk sequence. -/
theorem sendFileChunks_pos (fileSize : Nat) (acks : Nat → List Char)
    (hpos : ∀ k, positiveAck (acks k) = true) :
    sendFileChunks fileSize acks = (.completed, specChunkSizes fileSize) := by
  unfold sendFileChunks
  rw [sendChunkGo_pos fileSize acks hpos (fileSize + 1) 0 0 (by omega)]
  simp

/-- The spec-side chunk sizes sum to the remaining byte count: the
cumulative sent-byte counter ends exactly at the payload size. -/
theorem specChunkSizes_sum (r : Nat) : (specChunkSizes r).sum = r := by
  induction r using Nat.strong_induction_on with
  | _ r ih =>
    rcases Nat.eq_zero_or_pos r with rfl | hr
    · simp [specChunkSizes]
    · obtain ⟨s, rfl⟩ : ∃ s, r = s + 1 := ⟨r - 1, by omega⟩
      have hc : 0 < chunkSize := by decide
      rw [specChunkSizes, List.sum_cons,
        ih (s + 1 - min chunkSize (s + 1)) (by omega)]
      omega

/-- Every spec-side chunk is nonempty: the sent-byte counter strictly
increases at every chunk. -/
theorem specChunkSizes_pos (r : Nat) : ∀ c ∈ specChunkSizes r, 0 < c := by
  induction r using Nat.strong_induction_on with
  | _ r ih =>
    rcases Nat.eq_zero_or_pos r with rfl | hr
    · simp [specChunkSizes]
    · obtain ⟨s, rfl⟩ : ∃ s, r = s + 1 := ⟨r - 1, by omega⟩
      have hc : 0 < chunkSize := by decide
      rw [specChunkSizes]
      intro c hcmem
      rcases List.mem_cons.mp hcmem with rfl | hcmem
      · omega
      · exact ih (s + 1 - min chunkSize (s + 1)) (by omega) c hcmem

/-- The number of spec-side chunks is `⌈r / chunkSize⌉`. -/
theorem specChunkSizes_length (r : Nat) :
    (specChunkSizes r).length = (r + chunkSize - 1) / chunkSize := by
  induction r using Nat.strong_induction_on with
  | _ r ih =>
    rcases Nat.eq_zero_or_pos r with rfl | hr
    · simp [specChunkSizes, chunkSize]
    · obtain ⟨s, rfl⟩ : ∃ s, r = s + 1 := ⟨r - 1, by omega⟩
      have hc : 0 < chunkSize := by decide
      rw [specChunkSizes, List.length_cons,
        ih (s + 1 - min chunkSize (s + 1)) (by omega)]
      simp only [chunkSize] at *
      omega

/-- The `i`-th spec-side chunk has size `min chunkSize (r - chunkSize * i)`:
full chunks followed by the remainder. -/
theorem specChunkSizes_eq_map (r : Nat) :
    specChunkSizes r = (List.range ((r + chunkSize - 1) / chunkSize)).map
      (fun i => min chunkSize (r - chunkSize * i)) := by
  induction r using Nat.strong_induction_on with
  | _ r ih =>
    rcases Nat.eq_zero_or_pos r with rfl | hr
    · simp [specChunkSizes, chunkSize]
    · obtain ⟨s, rfl⟩ : ∃ s, r = s + 1 := ⟨r - 1, by omega⟩
      have hc : 0 < chunkSize := by decide
      have hn : (s + 1 + chunkSize - 1) / chunkSize =
          ((s + 1 - min chunkSize (s + 1) + chunkSize - 1) / chunkSize) + 1 := by
        simp only [chunkSize] at *
        omega
      rw [specChunkSizes, ih (s + 1 - min chunkSize (s + 1)) (by omega), hn,
        List.range_succ_eq_map, List.map_cons, List.map_map]
      simp only [List.cons.injEq]
      refine ⟨by simp only [chunkSize]; omega, ?_⟩
      apply List.map_congr_left
      intro i hi
      simp only [Function.comp_apply, chunkSize]
      simp only [chunkSize] at hc
      omega

/-- If acknowledgment `j` is negative, at most `j + 1 - chunkIdx` chunks
are written from index `chunkIdx` onward: the loop never writes a chunk
before the previous chunk's acknowledgment has arrived and been found
positive. -/
theorem sendChunkGo_gated (fileSize : Nat) (acks : Nat → List Char) :
    ∀ fuel ub idx j, idx ≤ j → positiveAck (acks j) = false →
      (sendChunkGo fileSize acks fuel ub idx).2.length ≤ j + 1 - idx := by
  intro fuel
  induction fuel with
  | zero =>
    intro ub idx j hij hneg
    simp [sendChunkGo]
  | succ fuel ih =>
    intro ub idx j hij hneg
    simp only [sendChunkGo]
    by_cases hub : fileSize ≤ ub
    · rw [if_pos hub]
      simp
    · rw [if_neg hub]
      by_cases hp : positiveAck (acks idx) = true
      · have hij' : idx < j := by
          rcases Nat.lt_or_ge idx j with hlt | hge
          · exact hlt
          · have heq : idx = j := by omega
            rw [heq, hneg] at hp
            simp at hp
        rw [if_pos hp]
        simp only [List.length_cons]
        have := ih (ub + min chunkSize (fileSize - ub)) (idx + 1) j (by omega) hneg
        omega
      · rw [if_neg hp]
        simp only [List.length_cons, List.length_nil]
        omega

/-- The executable `includes` test agrees with substring containment:
`pat` occurs in `s` iff `s` splits as `p ++ pat ++ q`. -/
theorem containsChars_iff (pat s : List Char) :
    containsChars pat s = true ↔ ∃ p q, s = p ++ pat ++ q := by
  unfold containsChars
  rw [List.any_eq_true]
  constructor
  · rintro ⟨i, hi, hp⟩
    rw [List.mem_range] at hi
    rw [decide_eq_true_eq] at hp
    have key : s.drop i = pat ++ (s.drop i).drop pat.length := by
      conv_lhs => rw [← List.take_append_drop pat.length (s.drop i)]
      rw [hp]
    refine ⟨s.take i, (s.drop i).drop pat.length, ?_⟩
    conv_lhs => rw [← List.take_append_drop i s, key]
    rw [List.append_assoc]
  · rintro ⟨p, q, rfl⟩
    refine ⟨p.length, ?_, ?_⟩
    · rw [List.mem_range]
      simp only [List.length_append]
      omega
    · rw [decide_eq_true_eq, List.append_assoc, List.drop_left, List.take_left]

/-! ## Claim theorems: transfer phase -/

/-- C2 (confirmed): for payload size `S > 0` with every chunk positively
acknowledged, the transfer completes after exactly `⌈S / 1024⌉` chunks;
the `i`-th chunk has `min 1024 (S - 1024·i)` bytes (that is,
`min 1024 (S - bytesSentSoFar)`); the chunk sizes are all positive and
sum to `S`, so the cumulative sent-byte counter strictly increases until
it equals `S`; and whenever an acknowledgment `j` is negative, no chunk
beyond index `j + 1` is ever written — each chunk waits for the previous
chunk's acknowledgment. -/
theorem chunk_transfer_spec (S : Nat) (acks : Nat → List Char)
    (_hS : 0 < S) (hpos : ∀ k, positiveAck (acks k) = true) :
    (sendFileChunks S acks).1 = TransferOutcome.completed ∧
    (sendFileChunks S acks).2 = (List.range ((S + chunkSize - 1) / chunkSize)).map
      (fun i => min chunkSize (S - chunkSize * i)) ∧
    (sendFileChunks S acks).2.length = (S + chunkSize - 1) / chunkSize ∧
    (sendFileChunks S acks).2.sum = S ∧
    (∀ c ∈ (sendFileChunks S acks).2, 0 < c) ∧
    (∀ acks2 j, positiveAck (acks2 j) = false →
      (sendFileChunks S acks2).2.length ≤ j + 1) := by
  have h := sendFileChunks_pos S acks hpos
  rw [h]
  refine ⟨rfl, specChunkSizes_eq_map S, specChunkSizes_length S,
    specChunkSizes_sum S, specChunkSizes_pos S, ?_⟩
  intro acks2 j hneg
  have := sendChunkGo_gated S acks2 (S + 1) 0 0 j (by omega) hneg
  rw [sendFileChunks]
  omega

/-- C2 (witness): a 2500-byte payload with all-`"OK"` acknowledgments is
sent as exactly three chunks of sizes 1024, 1024, 452. -/
theorem chunk_transfer_spec_witness :
    (sendFileChunks 2500 (fun _ => "OK".data)).1 = TransferOutcome.completed ∧
    (sendFileChunks 2500 (fun _ => "OK".data)).2 = [1024, 1024, 452] :=
  ⟨(chunk_transfer_spec 2500 (fun _ => "OK".data) (by norm_num)
      (fun _ => by show positiveAck ("OK".data) = true; decide)).1,
   by decide⟩

/-- C5 (counterexample): the acknowledgment payload `" "` (one space) is
not empty and does not contain the substring `"OK"` (its `includes` test
is false), so under the claim it should abort the transfer; the code
trims it to the empty string and continues — a 2-byte transfer
acknowledged only by `" "` completes. -/
theorem ack_classification_counterexample :
    positiveAck [' '] = true ∧
    ([' '] : List Char).isEmpty = false ∧
    containsChars ("OK".data) [' '] = false ∧
    sendFileChunks 2 (fun _ => [' ']) = (TransferOutcome.completed, [2]) := by
  decide

/-- C5 (amended): an acknowledgment is positive iff its payload, after
trimming whitespace, is empty or contains the substring `"OK"`; a
non-positive acknowledgment aborts the transfer at once with the
unexpected-acknowledgment error carrying the trimmed payload. -/
theorem ack_classification (a : List Char) :
    (positiveAck a = true ↔
      (jsTrim a = [] ∨ ∃ p q, jsTrim a = p ++ "OK".data ++ q)) ∧
    (∀ S, 0 < S → positiveAck a = false →
      sendFileChunks S (fun _ => a) =
        (TransferOutcome.unexpectedAck (jsTrim a), [min chunkSize S])) := by
  constructor
  · simp only [positiveAck, Bool.or_eq_true, List.isEmpty_iff, containsChars_iff]
    exact or_comm
  · intro S hS hneg
    rw [sendFileChunks]
    obtain ⟨f, hf⟩ : ∃ f, S + 1 = f + 1 := ⟨S, rfl⟩
    rw [hf]
    simp only [sendChunkGo]
    rw [if_neg (by omega), if_neg (by simp [hneg]), Nat.sub_zero]

/-- C5 (witness): the acknowledgment `"ERR"` is negative and makes a
5-byte transfer abort after its first (only) chunk, and `"xxOKyy"` is
positive by the substring rule. -/
theorem ack_classification_witness :
    sendFileChunks 5 (fun _ => "ERR".data) =
      (TransferOutcome.unexpectedAck ("ERR".data), [min chunkSize 5]) ∧
    positiveAck ("xxOKyy".data) = true :=
  ⟨(ack_classification ("ERR".data)).2 5 (by norm_num) (by decide),
   (ack_classification ("xxOKyy".data)).1.mpr
     (Or.inr ⟨"xx".data, "yy".data, by decide⟩)⟩

/-- C4 (counterexample): on the unexpected-acknowledgment exit path the
code runs only `server.close()` — the accepted connection is not ended,
contradicting the claim that both the listener and the accepted
connection are closed on every exit path. -/
theorem transfer_cleanup_counterexample :
    (sendFileCleanup ExitPath.unexpectedAck).serverClosed = true ∧
    (sendFileCleanup ExitPath.unexpectedAck).socketEnded = false := by
  decide

/-- C4 (amended): on every exit path of `sendFile` the TCP listener is
closed before the result or error is returned, but the accepted
connection is explicitly ended only on normal completion — the four
error paths (unexpected acknowledgment, TCP write error, socket error,
watchdog timeout) close only the listener. -/
theorem transfer_cleanup (p : ExitPath) :
    (sendFileCleanup p).serverClosed = true ∧
    ((sendFileCleanup p).socketEnded = true ↔ p = ExitPath.completed) := by
  cases p <;> simp [sendFileCleanup]

/-- C4 (witness): the watchdog-timeout path closes the listener but does
not end the accepted connection. -/
theorem transfer_cleanup_witness :
    (sendFileCleanup ExitPath.watchdogTimeout).serverClosed = true ∧
    ((sendFileCleanup ExitPath.watchdogTimeout).socketEnded = true ↔
      ExitPath.watchdogTimeout = ExitPath.completed) :=
  transfer_cleanup ExitPath.watchdogTimeout

/-- C6 (confirmed): the watchdog fires `serverTimeoutMs = 60000` ms after
listener start and closes the listener; if the session has not settled
by then it rejects the transfer with the timeout error, superseding
whatever state the chunk loop is in, and if the session has already
settled, the already-produced result is unchanged. -/
theorem watchdog_spec :
    serverTimeoutMs = 60000 ∧
    watchdogFire none = (SendFileSettle.rejectedTimeout, true) ∧
    (∀ r, watchdogFire (some r) = (r, true)) :=
  ⟨rfl, rfl, fun _ => rfl⟩

end ESPOTA
